import Mathlib

/-!
Verification development for the koishi-plugin-image-selector repository.

The plugin resolves user-typed tokens to media collections (directories whose
names encode aliases, separated by a dash), draws random items from them, and
enforces per-identity upload quotas on the write path.  Strings are embedded
as lists of characters (`Str`); the directory listing, the HTTP fetch results
and the clock-formatting functions are passed in as explicit inputs, which is
the boundary the source code itself draws around `fs`, `ctx.http` and `Date`.
Randomness is embedded as an explicit natural-number draw `r`; the source's
single call `Math.floor(Math.random() * n)` corresponds to `r % n` with `r`
uniform over a multiple of `n`.
-/

namespace ImageSel

/-- Strings are modelled as lists of characters; JavaScript string primitives
used by the plugin (startsWith, slice, trim, split, replace) are re-defined on
this representation below. -/
abbrev Str := List Char

/-- Coercion from Lean string literals to the character-list representation. -/
def S (s : String) : Str := s.data

/-- Character-wise test that `p` is an initial segment of `s`, mirroring
JavaScript `s.startsWith(p)`. -/
def strStartsWith : Str → Str → Bool
  | _, [] => true
  | [], _ :: _ => false
  | c :: cs, p :: ps => c == p && strStartsWith cs ps

/-- Whitespace set of JavaScript `String.prototype.trim` (ASCII whitespace,
NBSP, BOM, line/paragraph separators and the Unicode space separators). -/
def isJsWhitespace (c : Char) : Bool :=
  c == ' ' || c == '\t' || c == '\n' || c == '\r' ||
  c.toNat == 0x0b || c.toNat == 0x0c || c.toNat == 0xa0 || c.toNat == 0xfeff ||
  c.toNat == 0x1680 || (0x2000 <= c.toNat && c.toNat <= 0x200a) ||
  c.toNat == 0x2028 || c.toNat == 0x2029 || c.toNat == 0x202f ||
  c.toNat == 0x205f || c.toNat == 0x3000

/-- JavaScript `s.trim()`: strip leading and trailing whitespace. -/
def trimStr (s : Str) : Str :=
  ((s.dropWhile isJsWhitespace).reverse.dropWhile isJsWhitespace).reverse

/-- Accumulator for `splitOnDash`; mirrors `name.split('-')`, so empty
segments are kept (a trailing dash yields a final empty alias). -/
def splitOnDashAux : Str → Str → List Str
  | [], acc => [acc.reverse]
  | c :: cs, acc => if c = '-' then acc.reverse :: splitOnDashAux cs [] else splitOnDashAux cs (c :: acc)

/-- JavaScript `folderName.split('-')`: the first segment is the display name
and every segment (display name included) acts as an alias. -/
def splitOnDash (s : Str) : List Str := splitOnDashAux s []

/-- One record of the `possibleMatches` array built by `processImageRequest`:
a folder, the alias of that folder the input starts with, the trimmed rest of
the input, and the alias length. -/
structure AliasMatch where
  folderName : Str
  aliasName : Str
  suffix : Str
  aliasLength : Nat
deriving DecidableEq, Repr

/-- Matches contributed by a single folder: every alias of the folder that the
input starts with, in alias order (inner loop of `processImageRequest`). -/
def folderMatches (input folderName : Str) : List AliasMatch :=
  (splitOnDash folderName).filterMap (fun a =>
    if strStartsWith input a then
      some { folderName := folderName, aliasName := a,
             suffix := trimStr (input.drop a.length), aliasLength := a.length }
    else none)

/-- The full `possibleMatches` array, folders in directory-listing order
(outer loop of `processImageRequest`), before the sort. -/
def possibleMatchesOf (folders : List Str) (input : Str) : List AliasMatch :=
  (folders.map (folderMatches input)).flatten

/-- Comparator of `possibleMatches.sort((a, b) => b.aliasLength - a.aliasLength)`:
`a` may stay before `b` iff `a`'s alias is at least as long. -/
abbrev matchGE (a b : AliasMatch) : Prop := b.aliasLength ≤ a.aliasLength

instance : DecidableRel matchGE := fun a b => Nat.decLe b.aliasLength a.aliasLength

instance : IsTotal AliasMatch matchGE := ⟨fun a b => Nat.le_total b.aliasLength a.aliasLength⟩

instance : IsTrans AliasMatch matchGE := ⟨fun _ _ _ h1 h2 => Nat.le_trans h2 h1⟩

/-- The `possibleMatches` array after the in-place sort.  ECMAScript sorts are
stable, and a stable sort is uniquely determined by the comparator, so the
(stable) insertion sort gives the exact array the source code produces. -/
def sortMatches (ms : List AliasMatch) : List AliasMatch := List.insertionSort matchGE ms

/-- Everything `processImageRequest` derives from the match phase:
`bestMatch` (head of the sorted array), `bestMatches` (the kept set sharing
the representative's length and alias), the randomly selected match, the final
repeat count and whether the collision warning fired. -/
structure ResolveOut where
  representative : AliasMatch
  kept : List AliasMatch
  selected : AliasMatch
  count : Int
  warned : Bool
deriving DecidableEq, Repr

/-- Digit test of the regular expression `^\d+$` restricted to one character. -/
def isDigitChar (c : Char) : Bool := '0' ≤ c && c ≤ '9'

/-- Value of `parseInt(s, 10)` on an all-digit string. -/
def strToNat (s : Str) : Nat := s.foldl (fun n c => n * 10 + (c.toNat - '0'.toNat)) 0

/-- Test of `/^\d+$/.test(suffix)`. -/
def isAllDigits (s : Str) : Bool := !s.isEmpty && s.all isDigitChar

/-- Count parsing block of `processImageRequest` (before the final upper
clamp): empty suffix gives 1, an all-digit suffix gives
`Math.min(parseInt(suffix, 10), config.maxout)`, anything else gives 1. -/
def parseCount (suffix : Str) (maxout : Int) : Int :=
  if suffix = [] then 1
  else if isAllDigits suffix then min (strToNat suffix : Int) maxout
  else 1

/-- The final `if (count > config.maxout) count = config.maxout` clamp. -/
def clampCount (c maxout : Int) : Int := if c > maxout then maxout else c

/-- Match phase of `processImageRequest` for a given random draw `r`:
returns `none` when no alias of any folder is a leading segment of the input
(the documented no-op case), otherwise the representative, the kept set, the
uniformly selected serving match and the repeat count. -/
def resolveToken (folders : List Str) (input : Str) (maxout : Int) (r : Nat) : Option ResolveOut :=
  match sortMatches (possibleMatchesOf folders input) with
  | [] => none
  | best :: rest =>
    let bs := (best :: rest).filter (fun m => m.aliasLength == best.aliasLength && m.aliasName == best.aliasName)
    let sel := bs.getD (r % bs.length) best
    some { representative := best, kept := bs, selected := sel,
           count := clampCount (parseCount sel.suffix maxout) maxout,
           warned := decide (bs.length > 1) }

/-- Final repeat count used to draw items, when the input resolves at all. -/
def resolvedCount (folders : List Str) (input : Str) (maxout : Int) (r : Nat) : Option Int :=
  (resolveToken folders input maxout r).map (fun o => o.count)

/-! ### Quota resolver (save command, lines building the limit dictionaries) -/

/-- Simplified JavaScript value as it can appear in a `sizeLimit` config cell:
a finite number, `NaN` (still of number type), or any non-number value
(string, boolean, object, `null`). -/
inductive JVal where
  | num (q : ℚ)
  | nan
  | other
deriving DecidableEq, Repr

/-- One row of a limits table (`userLimits` / `groupLimits`); the `id` field
models `userId` respectively `guildId`.  Either field may be `undefined` in a
malformed config, which the dictionary-building loop tests for. -/
structure LimitRow where
  id : Option Str
  sizeLimit : Option JVal
deriving DecidableEq, Repr

/-- Dictionary building loop: iterate the table in order and assign
`dict[item.id] = item.sizeLimit` whenever both fields are defined, so a later
row with the same id overwrites an earlier one. -/
def buildLimitsDict (rows : List LimitRow) : Str → Option JVal :=
  rows.foldl
    (fun d row =>
      match row.id, row.sizeLimit with
      | some i, some v => fun k => if k = i then some v else d k
      | _, _ => d)
    (fun _ => none)

/-- JavaScript truthiness of an optional string (`undefined` and the empty
string are falsy). -/
def strTruthy : Option Str → Option Str
  | some s => if s = [] then none else some s
  | none => none

/-- Raw resolved limit before coercion, following the lookup order of the
save action: exact user row, else (for a truthy guildId) exact group row,
else (for a truthy guildId) the group "default" row, else the user
"default" row, else `undefined`. -/
def rawLimit (ud gd : Str → Option JVal) (userId : Str) (guildId : Option Str) : Option JVal :=
  match ud userId with
  | some v => some v
  | none =>
    match strTruthy guildId with
    | some g =>
      match gd g with
      | some v => some v
      | none =>
        match gd (S "default") with
        | some v => some v
        | none => ud (S "default")
    | none => ud (S "default")

/-- Final coercion of the save action: `undefined`/`null`, non-number values,
`NaN` and negative numbers all become 0. -/
def coerceLimit : Option JVal → ℚ
  | some (JVal.num q) => if q < 0 then 0 else q
  | _ => 0

/-- Resolved upload limit in megabytes for an identity, as computed by the
save command action. -/
def resolveLimitMB (userRows groupRows : List LimitRow) (userId : Str) (guildId : Option Str) : ℚ :=
  coerceLimit (rawLimit (buildLimitsDict userRows) (buildLimitsDict groupRows) userId guildId)

/-- Spec-side quota resolver, written to the claim's words for comparison:
precedence user row, then (whenever a groupId is PRESENT, not merely truthy)
group row and group "default" row, then user "default" row, then 0, with the
same coercion.  Used only to compare against `resolveLimitMB`. -/
def resolveLimitSpec (userRows groupRows : List LimitRow) (userId : Str) (guildId : Option Str) : ℚ :=
  let ud := buildLimitsDict userRows
  let gd := buildLimitsDict groupRows
  coerceLimit
    (match ud userId with
     | some v => some v
     | none =>
       match guildId with
       | some g =>
         match gd g with
         | some v => some v
         | none =>
           match gd (S "default") with
           | some v => some v
           | none => ud (S "default")
       | none => ud (S "default"))

/-! ### Write path (save command action) -/

/-- Extension table of `getFileExtension`, applied to a truthy
`file.type || file.mime` value; an unknown type falls back by the element's
declared kind (`video` elements get `.mp4`, everything else `.jpg`). -/
def extFromMime (t : Str) (elemType : Str) : Str :=
  if t = S "image/jpeg" then S ".jpg"
  else if t = S "image/png" then S ".png"
  else if t = S "image/gif" then S ".gif"
  else if t = S "image/webp" then S ".webp"
  else if t = S "image/bmp" then S ".bmp"
  else if t = S "video/mp4" then S ".mp4"
  else if t = S "video/quicktime" then S ".mov"
  else if t = S "video/x-msvideo" then S ".avi"
  else if elemType = S "video" then S ".mp4" else S ".jpg"

/-- Transfer result for one media element, as handed back by `ctx.http.file`:
the byte length of `file.data` plus the declared `file.type` and `file.mime`. -/
structure FetchedFile where
  dataLen : Nat
  fType : Option Str
  fMime : Option Str
deriving DecidableEq, Repr

/-- One element of the `allImages` array: its usable source url
(`attrs.src || attrs.url`, `none` for a falsy value), the fetch result
(`none` when `!file || !file.data`), and the element's type tag. -/
structure MediaItem where
  url : Option Str
  fetched : Option FetchedFile
  elemType : Str
deriving DecidableEq, Repr

/-- Embedding of `getFileExtension(file, img.type)`. -/
def getFileExtension (fType fMime : Option Str) (elemType : Str) : Str :=
  match strTruthy fType with
  | some t => extFromMime t elemType
  | none =>
    match strTruthy fMime with
    | some t => extFromMime t elemType
    | none => if elemType = S "video" then S ".mp4" else S ".jpg"

/-- Named values available to one filename rendering, after the JavaScript
`||`-defaulting of the session fields. -/
structure NamingContext where
  userId : Str
  username : Str
  timestampStr : Str
  dateStr : Str
  timeStr : Str
  indexStr : Str
  ext : Str
  guildIdStr : Str
  channelIdStr : Str
deriving DecidableEq, Repr

/-- Fuel-driven body of `replaceAll`; the fuel only has to dominate the
length of the subject string, which `replaceAll` arranges, so the exhausted
branch is never taken there. -/
def replaceAllAux (pat rep : Str) : Nat → Str → Str
  | _, [] => []
  | 0, s => s
  | fuel + 1, c :: rest =>
    if pat ≠ [] ∧ strStartsWith (c :: rest) pat then
      rep ++ replaceAllAux pat rep fuel ((c :: rest).drop pat.length)
    else
      c :: replaceAllAux pat rep fuel rest

/-- JavaScript `s.replace(pat, rep)` with a global literal pattern:
left-to-right, non-overlapping, the replacement text is not rescanned. -/
def replaceAll (pat rep s : Str) : Str := replaceAllAux pat rep s.length s

/-- The nine successive global placeholder substitutions of the save loop, in
source order. -/
def renderTemplate (tpl : Str) (cx : NamingContext) : Str :=
  replaceAll (S "$\x7bchannelId\x7d") cx.channelIdStr
    (replaceAll (S "$\x7bguildId\x7d") cx.guildIdStr
      (replaceAll (S "$\x7bext\x7d") cx.ext
        (replaceAll (S "$\x7bindex\x7d") cx.indexStr
          (replaceAll (S "$\x7btime\x7d") cx.timeStr
            (replaceAll (S "$\x7bdate\x7d") cx.dateStr
              (replaceAll (S "$\x7btimestamp\x7d") cx.timestampStr
                (replaceAll (S "$\x7busername\x7d") cx.username
                  (replaceAll (S "$\x7buserId\x7d") cx.userId tpl))))))))

/-- Reserved set of the sanitizing regular expression
`[\u0000-\u001f\u007f-\u009f\/\\:*?"<>|]`. -/
def isReservedFilenameChar (c : Char) : Bool :=
  c.toNat ≤ 0x1f || (0x7f ≤ c.toNat && c.toNat ≤ 0x9f) ||
  c == '/' || c == '\\' || c == ':' || c == '*' || c == '?' ||
  c == '"' || c == '<' || c == '>' || c == '|'

/-- Filename sanitizer: every reserved character becomes an underscore. -/
def sanitizeFilename (s : Str) : Str :=
  s.map (fun c => if isReservedFilenameChar c then '_' else c)


/-- Decimal rendering of a natural number (`timestamp.toString()`,
`(i + 1).toString()`). -/
def natToStr (n : Nat) : Str := (toString n).data

/-- JavaScript `value || fallback` on an optional string session field. -/
def orDefaultStr (v : Option Str) (d : Str) : Str :=
  match strTruthy v with
  | some s => s
  | none => d

/-- Session fields the save action reads. -/
structure SaveSession where
  userId : Str
  username : Option Str
  guildId : Option Str
  channelId : Option Str
deriving DecidableEq, Repr

/-- Configuration surface of the save action. -/
structure SaveConfig where
  tempPath : Str
  imagePath : Str
  filenameTemplate : Str
  saveFailFallback : Bool
  userLimits : List LimitRow
  groupLimits : List LimitRow
deriving DecidableEq, Repr

/-- Everything the save loop body reads that does not change between items:
the target directory, the template, session values, the resolved limit (MB
and bytes), the batch base timestamp, and the date/time formatting of the
host `Date` object, taken as oracle inputs. -/
structure LoopEnv where
  target : Str
  tpl : Str
  sess : SaveSession
  limitMB : ℚ
  limitBytes : ℚ
  baseTs : Nat
  fmtDate : Nat → Str
  fmtTime : Nat → Str

/-- Messages the save loop sends to the user (the oversize skip notice,
carrying the 1-based item index, the byte length and the limit in MB that
the formatted text interpolates). -/
inductive SentMsg where
  | oversize (index : Nat) (sizeBytes : Nat) (limitMB : ℚ)
deriving DecidableEq

/-- Mutable state of the save loop: `savedCount`, the performed file writes
as (directory, filename) pairs, and the sent messages. -/
structure LoopState where
  savedCount : Nat
  writes : List (Str × Str)
  msgs : List SentMsg
deriving DecidableEq

/-- Naming context for item `i` of the batch, built exactly from the nine
substitution arguments of the source. -/
def mkContext (env : LoopEnv) (i : Nat) (f : FetchedFile) (elemType : Str) : NamingContext :=
  { userId := orDefaultStr (some env.sess.userId) (S "unknown")
    username := orDefaultStr env.sess.username (S "unknown")
    timestampStr := natToStr (env.baseTs + i)
    dateStr := env.fmtDate (env.baseTs + i)
    timeStr := env.fmtTime (env.baseTs + i)
    indexStr := natToStr (i + 1)
    ext := getFileExtension f.fType f.fMime elemType
    guildIdStr := orDefaultStr env.sess.guildId (S "private")
    channelIdStr := orDefaultStr env.sess.channelId (S "unknown") }

/-- Filename written for item `i`: rendered template, then sanitized. -/
def filenameFor (env : LoopEnv) (i : Nat) (f : FetchedFile) (elemType : Str) : Str :=
  sanitizeFilename (renderTemplate env.tpl (mkContext env i f elemType))

/-- Body of the save loop for item `i`: skip on a falsy url, skip when the
fetch yielded no data, send the skip notice when the byte length exceeds the
limit, otherwise write the file and count it. -/
def processItem (env : LoopEnv) (i : Nat) (it : MediaItem) (st : LoopState) : LoopState :=
  match strTruthy it.url with
  | none => st
  | some _ =>
    match it.fetched with
    | none => st
    | some f =>
      if (f.dataLen : ℚ) > env.limitBytes then
        { st with msgs := st.msgs ++ [SentMsg.oversize (i + 1) f.dataLen env.limitMB] }
      else
        { savedCount := st.savedCount + 1
          writes := st.writes ++ [(env.target, filenameFor env i f it.elemType)]
          msgs := st.msgs }

/-- The `for (let i = 0; i < allImages.length; i++)` loop, starting at
index `i`. -/
def runItems (env : LoopEnv) (i : Nat) : List MediaItem → LoopState → LoopState
  | [], st => st
  | it :: rest, st => runItems env (i + 1) rest (processItem env i it st)

/-- The whole save loop over a batch. -/
def saveLoop (env : LoopEnv) (items : List MediaItem) : LoopState :=
  runItems env 0 items { savedCount := 0, writes := [], msgs := [] }

/-- Decides whether one item ends up written: usable url, fetched data, and
byte length within the limit. -/
def itemOk (limitBytes : ℚ) (it : MediaItem) : Bool :=
  (strTruthy it.url).isSome &&
    (match it.fetched with
     | some f => decide ((f.dataLen : ℚ) ≤ limitBytes)
     | none => false)

/-- Number of items of a batch that get written. -/
def okCount (limitBytes : ℚ) (items : List MediaItem) : Nat :=
  (items.filter (itemOk limitBytes)).length

/-- Oversize test for one item (url usable, data fetched, length above the
limit); returns the fetch record when it holds. -/
def itemOversize (limitBytes : ℚ) (it : MediaItem) : Option FetchedFile :=
  match strTruthy it.url with
  | none => none
  | some _ =>
    match it.fetched with
    | none => none
    | some f => if (f.dataLen : ℚ) > limitBytes then some f else none

/-- Writes the loop performs for a batch starting at index `i`. -/
def writesOf (env : LoopEnv) (i : Nat) : List MediaItem → List (Str × Str)
  | [] => []
  | it :: rest =>
    (match strTruthy it.url, it.fetched with
     | some _, some f =>
       if (f.dataLen : ℚ) > env.limitBytes then []
       else [(env.target, filenameFor env i f it.elemType)]
     | _, _ => []) ++ writesOf env (i + 1) rest

/-- Messages the loop sends for a batch starting at index `i`. -/
def msgsOf (env : LoopEnv) (i : Nat) : List MediaItem → List SentMsg
  | [] => []
  | it :: rest =>
    (match itemOversize env.limitBytes it with
     | some f => [SentMsg.oversize (i + 1) f.dataLen env.limitMB]
     | none => []) ++ msgsOf env (i + 1) rest

/-- Exact-match lookup of the save action: every folder one of whose name
segments equals the keyword, in directory-listing order. -/
def matchedFoldersOf (folders : List Str) (keyword : Str) : List Str :=
  folders.filter (fun f => (splitOnDash f).contains keyword)

/-- Path join used for the target directory. -/
def joinPath (a b : Str) : Str := a ++ '/' :: b

/-- Outcome of one save request, one constructor per return statement of the
action past the keyword prompt. -/
inductive SaveOutcome where
  | quotaDenied
  | cancelled (keyword : Str)
  | savedToFolder (folderName : Str) (savedCount : Nat)
  | savedToTemp (keyword : Str) (savedCount : Nat)
  | ioError
deriving DecidableEq, Repr

/-- Saved-file count an outcome reports. -/
def SaveOutcome.savedOf : SaveOutcome → Nat
  | SaveOutcome.savedToFolder _ n => n
  | SaveOutcome.savedToTemp _ n => n
  | _ => 0

/-- Result descriptor of one save request: outcome, directories whose
creation was attempted, performed writes, sent skip messages, and emitted
collision warnings (the save path contains no warning call, unlike the
prefix-mode middleware). -/
structure SaveResult where
  outcome : SaveOutcome
  mkdirAttempts : List Str
  writes : List (Str × Str)
  msgs : List SentMsg
  warns : List Str

/-- Save command action from the quota check onward: resolve the limit, deny
at a non-positive limit, match the keyword exactly against the folder list,
cancel or fall back to the temp path on no match, create the target
directory (`mkdirOk` is the oracle for `fs.mkdir`), then run the item loop. -/
def saveCommand (cfg : SaveConfig) (sess : SaveSession) (folders : List Str) (keyword : Str)
    (items : List MediaItem) (baseTs : Nat) (fmtDate fmtTime : Nat → Str) (mkdirOk : Bool) :
    SaveResult :=
  let limitMB := resolveLimitMB cfg.userLimits cfg.groupLimits sess.userId sess.guildId
  if limitMB ≤ 0 then
    { outcome := SaveOutcome.quotaDenied, mkdirAttempts := [], writes := [], msgs := [], warns := [] }
  else
    let limitBytes := limitMB * 1024 * 1024
    let matched := if keyword ≠ [] then matchedFoldersOf folders keyword else []
    match matched with
    | f0 :: _ =>
      let target := joinPath cfg.imagePath f0
      if mkdirOk then
        let env : LoopEnv :=
          { target := target, tpl := cfg.filenameTemplate, sess := sess, limitMB := limitMB,
            limitBytes := limitBytes, baseTs := baseTs, fmtDate := fmtDate, fmtTime := fmtTime }
        let st := saveLoop env items
        { outcome := SaveOutcome.savedToFolder f0 st.savedCount, mkdirAttempts := [target],
          writes := st.writes, msgs := st.msgs, warns := [] }
      else
        { outcome := SaveOutcome.ioError, mkdirAttempts := [target], writes := [], msgs := [], warns := [] }
    | [] =>
      if keyword ≠ [] ∧ cfg.saveFailFallback = false then
        { outcome := SaveOutcome.cancelled keyword, mkdirAttempts := [], writes := [], msgs := [], warns := [] }
      else if mkdirOk then
        let env : LoopEnv :=
          { target := cfg.tempPath, tpl := cfg.filenameTemplate, sess := sess, limitMB := limitMB,
            limitBytes := limitBytes, baseTs := baseTs, fmtDate := fmtDate, fmtTime := fmtTime }
        let st := saveLoop env items
        { outcome := SaveOutcome.savedToTemp keyword st.savedCount, mkdirAttempts := [cfg.tempPath],
          writes := st.writes, msgs := st.msgs, warns := [] }
      else
        { outcome := SaveOutcome.ioError, mkdirAttempts := [cfg.tempPath], writes := [], msgs := [], warns := [] }


/-- Concrete match record used in collision examples: folder `X-a`, alias
`a`, input `a`. -/
def mXa : AliasMatch := { folderName := S "X-a", aliasName := S "a", suffix := [], aliasLength := 1 }

/-- Concrete match record used in collision examples: folder `Y-a`, alias
`a`, input `a`. -/
def mYa : AliasMatch := { folderName := S "Y-a", aliasName := S "a", suffix := [], aliasLength := 1 }

/-- Resolution outcome of input `a` against folders `X-a`, `Y-a` at draw 0. -/
def oXY : ResolveOut :=
  { representative := mXa, kept := [mXa, mYa], selected := mXa, count := 1, warned := true }

/-- Concrete match record for folder `a`, input `a2`. -/
def mA2 : AliasMatch := { folderName := S "a", aliasName := S "a", suffix := S "2", aliasLength := 1 }

/-- Resolution outcome of input `a2` against folder `a` with maxout 5. -/
def oA2 : ResolveOut :=
  { representative := mA2, kept := [mA2], selected := mA2, count := 2, warned := false }

/-- Concrete loop environment for witnesses: 1 MB limit. -/
def envW : LoopEnv :=
  { target := S "t", tpl := S "x",
    sess := { userId := S "u", username := none, guildId := none, channelId := none },
    limitMB := 1, limitBytes := 1048576, baseTs := 0,
    fmtDate := fun _ => [], fmtTime := fun _ => [] }

/-- Concrete fetch result within the 1 MB limit. -/
def fSmallW : FetchedFile := { dataLen := 10, fType := none, fMime := none }

/-- Concrete fetch result above the 1 MB limit. -/
def fBigW : FetchedFile := { dataLen := 2000000, fType := none, fMime := none }

/-- Concrete batch item that gets saved. -/
def itemOkW : MediaItem :=
  { url := some (S "http://x"), fetched := some fSmallW, elemType := S "img" }

/-- Concrete oversize batch item. -/
def itemBigW : MediaItem :=
  { url := some (S "http://y"), fetched := some fBigW, elemType := S "img" }

/-! ### Lemmas about the prefix-mode resolver -/

theorem startsWith_eq_take {s p : Str} (h : strStartsWith s p = true) : p = s.take p.length := by
  induction p generalizing s with
  | nil => simp
  | cons q ps ih =>
    cases s with
    | nil => simp [strStartsWith] at h
    | cons c cs =>
      simp only [strStartsWith, Bool.and_eq_true, beq_iff_eq] at h
      obtain ⟨hc, hrest⟩ := h
      subst hc
      rw [List.length_cons, List.take_succ_cons, ← ih hrest]

theorem mem_folderMatches {input f : Str} {m : AliasMatch} (h : m ∈ folderMatches input f) :
    strStartsWith input m.aliasName = true ∧ m.aliasLength = m.aliasName.length := by
  simp only [folderMatches, List.mem_filterMap] at h
  obtain ⟨a, _, heq⟩ := h
  by_cases hc : strStartsWith input a = true
  · rw [if_pos hc] at heq
    cases heq
    exact ⟨hc, rfl⟩
  · rw [if_neg hc] at heq
    cases heq

theorem mem_possibleMatches {folders : List Str} {input : Str} {m : AliasMatch}
    (h : m ∈ possibleMatchesOf folders input) :
    strStartsWith input m.aliasName = true ∧ m.aliasLength = m.aliasName.length := by
  simp only [possibleMatchesOf, List.mem_flatten, List.mem_map] at h
  obtain ⟨_, ⟨f, _, rfl⟩, hm⟩ := h
  exact mem_folderMatches hm

theorem alias_eq_of_len_eq {folders : List Str} {input : Str} {m1 m2 : AliasMatch}
    (h1 : m1 ∈ possibleMatchesOf folders input) (h2 : m2 ∈ possibleMatchesOf folders input)
    (hl : m1.aliasLength = m2.aliasLength) : m1.aliasName = m2.aliasName := by
  obtain ⟨hp1, he1⟩ := mem_possibleMatches h1
  obtain ⟨hp2, he2⟩ := mem_possibleMatches h2
  rw [startsWith_eq_take hp1, startsWith_eq_take hp2, ← he1, ← he2, hl]

theorem mem_of_mem_sortMatches {ms : List AliasMatch} {m : AliasMatch}
    (h : m ∈ sortMatches ms) : m ∈ ms :=
  (List.perm_insertionSort matchGE ms).subset h

theorem sortMatches_head_max {ms : List AliasMatch} {b : AliasMatch} {t : List AliasMatch}
    (hs : sortMatches ms = b :: t) (m : AliasMatch) (hm : m ∈ ms) :
    m.aliasLength ≤ b.aliasLength := by
  have hsorted := List.sorted_insertionSort matchGE ms
  rw [show List.insertionSort matchGE ms = sortMatches ms from rfl, hs] at hsorted
  have hmem : m ∈ sortMatches ms := (List.perm_insertionSort matchGE ms).mem_iff.mpr hm
  rw [hs] at hmem
  rcases List.mem_cons.mp hmem with rfl | hmem2
  · exact Nat.le_refl _
  · exact List.rel_of_sorted_cons hsorted m hmem2

theorem clampCount_of_le {c maxout : Int} (h : c ≤ maxout) : clampCount c maxout = c :=
  if_neg (not_lt.mpr h)

theorem count_bound (sfx : Str) (maxout : Int) (hm : 1 ≤ maxout) :
    0 ≤ clampCount (parseCount sfx maxout) maxout ∧
    clampCount (parseCount sfx maxout) maxout ≤ maxout ∧
    (clampCount (parseCount sfx maxout) maxout < 1 →
      isAllDigits sfx = true ∧ strToNat sfx = 0) := by
  have hone : clampCount 1 maxout = 1 := clampCount_of_le hm
  unfold parseCount
  by_cases hempty : sfx = []
  · rw [if_pos hempty, hone]
    exact ⟨by omega, hm, by omega⟩
  · rw [if_neg hempty]
    by_cases hd : isAllDigits sfx = true
    · rw [if_pos hd]
      have hmin : min (strToNat sfx : Int) maxout ≤ maxout := min_le_right _ _
      rw [clampCount_of_le hmin]
      have hnn : (0 : Int) ≤ (strToNat sfx : Int) := Int.ofNat_nonneg _
      refine ⟨le_min hnn (by omega), hmin, fun hlt => ⟨hd, ?_⟩⟩
      rcases le_total ((strToNat sfx : Nat) : Int) maxout with hle | hle
      · rw [min_eq_left hle] at hlt
        omega
      · rw [min_eq_right hle] at hlt
        omega
    · rw [if_neg hd, hone]
      exact ⟨by omega, hm, by omega⟩


theorem resolveToken_eq {folders : List Str} {input : Str} {best : AliasMatch} {rest : List AliasMatch}
    (maxout : Int) (r : Nat)
    (hs : sortMatches (possibleMatchesOf folders input) = best :: rest) :
    resolveToken folders input maxout r =
      some { representative := best
             kept := (best :: rest).filter
               (fun m => m.aliasLength == best.aliasLength && m.aliasName == best.aliasName)
             selected := ((best :: rest).filter
               (fun m => m.aliasLength == best.aliasLength && m.aliasName == best.aliasName)).getD
                 (r % ((best :: rest).filter
                   (fun m => m.aliasLength == best.aliasLength && m.aliasName == best.aliasName)).length)
                 best
             count := clampCount
               (parseCount
                 (((best :: rest).filter
                   (fun m => m.aliasLength == best.aliasLength && m.aliasName == best.aliasName)).getD
                     (r % ((best :: rest).filter
                       (fun m => m.aliasLength == best.aliasLength && m.aliasName == best.aliasName)).length)
                     best).suffix
                 maxout)
               maxout
             warned := decide (((best :: rest).filter
               (fun m => m.aliasLength == best.aliasLength && m.aliasName == best.aliasName)).length > 1) } := by
  simp only [resolveToken, hs]

theorem resolveToken_none {folders : List Str} {input : Str} (maxout : Int) (r : Nat)
    (hs : sortMatches (possibleMatchesOf folders input) = []) :
    resolveToken folders input maxout r = none := by
  simp only [resolveToken, hs]


/-- C1 (amended).  In prefix mode, any two matches of the same input whose
aliases have equal length carry the SAME alias string, so a tie between
distinct max-length alias strings cannot occur; the representative
(`bestMatch`) is the head of the stably sorted match array — a deterministic
choice, not a random one; the kept set (`bestMatches`) is exactly the set of
all matches of maximal alias length; and the serving Collection is chosen by
uniform random choice over that set (`r` ranging over residues selects each
kept match exactly once, in order). -/
theorem prefix_tiebreak_resolution (folders : List Str) (input : Str) (maxout : Int) (r : Nat)
    (o : ResolveOut) (h : resolveToken folders input maxout r = some o) :
    (∀ m1 ∈ possibleMatchesOf folders input, ∀ m2 ∈ possibleMatchesOf folders input,
        m1.aliasLength = m2.aliasLength → m1.aliasName = m2.aliasName)
    ∧ (∀ m ∈ possibleMatchesOf folders input, m.aliasLength ≤ o.representative.aliasLength)
    ∧ (sortMatches (possibleMatchesOf folders input)).head? = some o.representative
    ∧ o.kept = (sortMatches (possibleMatchesOf folders input)).filter
        (fun m => m.aliasLength == o.representative.aliasLength)
    ∧ (∀ i, i < o.kept.length → ∃ o2, resolveToken folders input maxout i = some o2 ∧
        o2.kept = o.kept ∧ o2.selected = o.kept.getD i o.representative) := by
  rcases hs : sortMatches (possibleMatchesOf folders input) with _ | ⟨best, rest⟩
  · rw [resolveToken_none maxout r hs] at h
    cases h
  · rw [resolveToken_eq maxout r hs] at h
    injection h with h2
    subst h2
    have hmemPM : ∀ m ∈ best :: rest, m ∈ possibleMatchesOf folders input := by
      intro m hm
      exact mem_of_mem_sortMatches (hs ▸ hm)
    refine ⟨fun m1 hm1 m2 hm2 hl => alias_eq_of_len_eq hm1 hm2 hl,
      fun m hm => sortMatches_head_max hs m hm, rfl, ?_, ?_⟩
    · refine List.filter_congr ?_
      intro m hm
      by_cases hb : m.aliasLength = best.aliasLength
      · have hal : m.aliasName = best.aliasName :=
          alias_eq_of_len_eq (hmemPM m hm) (hmemPM best (List.mem_cons_self best rest)) hb
        simp [hb, hal]
      · simp [hb]
    · intro i hi
      refine ⟨_, resolveToken_eq maxout i hs, rfl, ?_⟩
      have hi2 : i < ((best :: rest).filter
          (fun m => m.aliasLength == best.aliasLength && m.aliasName == best.aliasName)).length := hi
      rw [Nat.mod_eq_of_lt hi2]


/-- C1 counterexample.  With folders `X-a` and `Y-a` and input `a`, the
max-length set (`bestMatches`) has two member records from distinct folders,
yet for both residues of the random draw the representative (`bestMatch`) is
the record of the FIRST folder: the representative is not a uniform random
choice over the max-length set (the second member is never the
representative), while the serving selection does range over both folders. -/
theorem prefix_tiebreak_random_representative_cex :
    (resolveToken [S "X-a", S "Y-a"] (S "a") 5 0).map (fun o => o.kept) = some [mXa, mYa]
    ∧ mXa.folderName ≠ mYa.folderName
    ∧ (resolveToken [S "X-a", S "Y-a"] (S "a") 5 0).map (fun o => o.representative) = some mXa
    ∧ (resolveToken [S "X-a", S "Y-a"] (S "a") 5 1).map (fun o => o.representative) = some mXa
    ∧ (resolveToken [S "X-a", S "Y-a"] (S "a") 5 0).map (fun o => o.selected) = some mXa
    ∧ (resolveToken [S "X-a", S "Y-a"] (S "a") 5 1).map (fun o => o.selected) = some mYa := by
  refine ⟨by decide, by decide, by decide, by decide, by decide, by decide⟩

/-- Witness for `prefix_tiebreak_resolution` at folders `X-a`, `Y-a`,
input `a`, maxout 5, draw 0. -/
theorem prefix_tiebreak_resolution_witness :
    resolveToken [S "X-a", S "Y-a"] (S "a") 5 0 = some oXY
    ∧ ((∀ m1 ∈ possibleMatchesOf [S "X-a", S "Y-a"] (S "a"),
          ∀ m2 ∈ possibleMatchesOf [S "X-a", S "Y-a"] (S "a"),
          m1.aliasLength = m2.aliasLength → m1.aliasName = m2.aliasName)
      ∧ (∀ m ∈ possibleMatchesOf [S "X-a", S "Y-a"] (S "a"),
          m.aliasLength ≤ oXY.representative.aliasLength)
      ∧ (sortMatches (possibleMatchesOf [S "X-a", S "Y-a"] (S "a"))).head? = some oXY.representative
      ∧ oXY.kept = (sortMatches (possibleMatchesOf [S "X-a", S "Y-a"] (S "a"))).filter
          (fun m => m.aliasLength == oXY.representative.aliasLength)
      ∧ (∀ i, i < oXY.kept.length → ∃ o2, resolveToken [S "X-a", S "Y-a"] (S "a") 5 i = some o2 ∧
          o2.kept = oXY.kept ∧ o2.selected = oXY.kept.getD i oXY.representative)) :=
  ⟨by decide, prefix_tiebreak_resolution [S "X-a", S "Y-a"] (S "a") 5 0 oXY (by decide)⟩

/-- C2 (amended).  With a positive `maxout` configuration the final repeat
count lies in `[0, maxout]` — not `[1, maxout]`: there is no lower clamp to
1, and a count below 1 arises exactly from an all-digit suffix parsing to 0. -/
theorem final_count_range (folders : List Str) (input : Str) (maxout : Int) (r : Nat)
    (o : ResolveOut) (h : resolveToken folders input maxout r = some o) (hm : 1 ≤ maxout) :
    0 ≤ o.count ∧ o.count ≤ maxout ∧
      (o.count < 1 → isAllDigits o.selected.suffix = true ∧ strToNat o.selected.suffix = 0) := by
  rcases hs : sortMatches (possibleMatchesOf folders input) with _ | ⟨best, rest⟩
  · rw [resolveToken_none maxout r hs] at h
    cases h
  · rw [resolveToken_eq maxout r hs] at h
    injection h with h2
    subst h2
    exact count_bound _ maxout hm

/-- C2 counterexample.  Folder `a`, input `a0`, maxout 5: the resolved final
count is 0, which is below the claimed lower bound 1 (the digit suffix `0` is
not raised to 1 before items are drawn). -/
theorem final_count_lower_clamp_cex :
    resolvedCount [S "a"] (S "a0") 5 0 = some 0 ∧ (0 : Int) < 1 :=
  ⟨by decide, by decide⟩

/-- Witness for `final_count_range` at folder `a`, input `a2`, maxout 5,
draw 0. -/
theorem final_count_range_witness :
    resolveToken [S "a"] (S "a2") 5 0 = some oA2 ∧ (1 : Int) ≤ 5
    ∧ (0 ≤ oA2.count ∧ oA2.count ≤ 5 ∧
        (oA2.count < 1 → isAllDigits oA2.selected.suffix = true ∧ strToNat oA2.selected.suffix = 0)) :=
  ⟨by decide, by decide, final_count_range [S "a"] (S "a2") 5 0 oA2 (by decide) (by decide)⟩


theorem resolveToken_singleton {folders : List Str} {input : Str} {m : AliasMatch}
    (maxout : Int) (r : Nat) (h : possibleMatchesOf folders input = [m]) :
    resolveToken folders input maxout r =
      some { representative := m, kept := [m], selected := m,
             count := clampCount (parseCount m.suffix maxout) maxout, warned := false } := by
  have hs : sortMatches (possibleMatchesOf folders input) = [m] := by
    rw [h]
    rfl
  rw [resolveToken_eq maxout r hs]
  simp [Nat.mod_one]

theorem parseCount_digits {s : Str} (maxout : Int) (hd : isAllDigits s = true) :
    parseCount s maxout = min (strToNat s : Int) maxout := by
  have hne : s ≠ [] := by
    intro he
    rw [he] at hd
    simp [isAllDigits] at hd
  rw [parseCount, if_neg hne, if_pos hd]

theorem parseCount_other {s : Str} (maxout : Int) (hne : s ≠ []) (hd : isAllDigits s = false) :
    parseCount s maxout = 1 := by
  rw [parseCount, if_neg hne, hd]
  rfl

/-- C4.  Repeat-count parsing from the trimmed suffix: an empty suffix gives
count 1, an all-digit suffix gives `min(parseInt(suffix), maxout)`, any other
non-empty suffix gives count 1; end to end (for a positive maxout), with the
single folder `a` the input `a7` resolves to `min(7, maxout)`, the input
`a7x` resolves to count 1, and the bare input `a` resolves to count 1 — the
request proceeds in every case. -/
theorem repeat_count_parsing (maxout : Int) (hm : 1 ≤ maxout) (s : Str) (r : Nat) :
    parseCount [] maxout = 1
    ∧ (isAllDigits s = true → parseCount s maxout = min (strToNat s : Int) maxout)
    ∧ (s ≠ [] → isAllDigits s = false → parseCount s maxout = 1)
    ∧ resolvedCount [S "a"] (S "a7") maxout r = some (min 7 maxout)
    ∧ resolvedCount [S "a"] (S "a7x") maxout r = some 1
    ∧ resolvedCount [S "a"] (S "a") maxout r = some 1 := by
  have hclamp1 : clampCount 1 maxout = 1 := clampCount_of_le hm
  refine ⟨rfl, fun hd => parseCount_digits maxout hd, fun hne hd => parseCount_other maxout hne hd,
    ?_, ?_, ?_⟩
  · have hpm : possibleMatchesOf [S "a"] (S "a7") =
        [{ folderName := S "a", aliasName := S "a", suffix := S "7", aliasLength := 1 }] := by
      decide
    rw [resolvedCount, resolveToken_singleton maxout r hpm, Option.map_some']
    have hp : parseCount (S "7") maxout = min (7 : Int) maxout := by
      rw [parseCount_digits maxout (by decide), show strToNat (S "7") = 7 by decide]
      norm_num
    rw [hp, clampCount_of_le (min_le_right _ _)]
  · have hpm : possibleMatchesOf [S "a"] (S "a7x") =
        [{ folderName := S "a", aliasName := S "a", suffix := S "7x", aliasLength := 1 }] := by
      decide
    rw [resolvedCount, resolveToken_singleton maxout r hpm, Option.map_some']
    rw [parseCount_other maxout (by decide) (by decide), hclamp1]
  · have hpm : possibleMatchesOf [S "a"] (S "a") =
        [{ folderName := S "a", aliasName := S "a", suffix := [], aliasLength := 1 }] := by
      decide
    rw [resolvedCount, resolveToken_singleton maxout r hpm, Option.map_some']
    rw [show parseCount [] maxout = 1 from rfl, hclamp1]

/-- Witness for `repeat_count_parsing` at maxout 5, suffix `x1`, draw 0. -/
theorem repeat_count_parsing_witness :
    (1 : Int) ≤ 5
    ∧ (parseCount [] 5 = 1
      ∧ (isAllDigits (S "x1") = true → parseCount (S "x1") 5 = min (strToNat (S "x1") : Int) 5)
      ∧ (S "x1" ≠ [] → isAllDigits (S "x1") = false → parseCount (S "x1") 5 = 1)
      ∧ resolvedCount [S "a"] (S "a7") 5 0 = some (min 7 5)
      ∧ resolvedCount [S "a"] (S "a7x") 5 0 = some 1
      ∧ resolvedCount [S "a"] (S "a") 5 0 = some 1) :=
  ⟨by decide, repeat_count_parsing 5 (by decide) (S "x1") 0⟩


/-! ### Lemmas about the quota resolver -/

theorem buildLimitsDict_foldl (rows : List LimitRow) (d : Str → Option JVal) (k : Str) :
    (rows.foldl
      (fun d2 row =>
        match row.id, row.sizeLimit with
        | some i, some v => fun k2 => if k2 = i then some v else d2 k2
        | _, _ => d2)
      d) k =
    match rows.reverse.find? (fun row => decide (row.id = some k) && row.sizeLimit.isSome) with
    | some row => row.sizeLimit
    | none => d k := by
  induction rows generalizing d with
  | nil => rfl
  | cons row rest ih =>
    rw [List.foldl_cons, ih, List.reverse_cons, List.find?_append]
    rcases hfind : rest.reverse.find? (fun row => decide (row.id = some k) && row.sizeLimit.isSome) with _ | row2
    · rw [hfind, Option.none_or]
      rcases hid : row.id with _ | i
      · simp [List.find?, hid]
      · rcases hsl : row.sizeLimit with _ | v
        · simp [List.find?, hid, hsl]
        · by_cases hk : i = k
          · subst hk
            simp [List.find?, hid, hsl]
          · have hk2 : ¬ k = i := fun h2 => hk h2.symm
            simp [List.find?, hid, hsl, hk, hk2]
    · rw [hfind]
      rfl

/-- C10.  The limits dictionary lookup returns the `sizeLimit` of the LAST
row of the table whose id equals the key and whose `sizeLimit` is defined;
rows with an undefined id or an undefined `sizeLimit` are ignored entirely
(a later valid row overwrites an earlier one with the same id). -/
theorem limits_dict_last_valid_row_wins (rows : List LimitRow) (k : Str) :
    buildLimitsDict rows k =
      (rows.reverse.find? (fun row => decide (row.id = some k) && row.sizeLimit.isSome)).bind
        (fun row => row.sizeLimit) := by
  rw [buildLimitsDict, buildLimitsDict_foldl]
  rcases hfind : rows.reverse.find? (fun row => decide (row.id = some k) && row.sizeLimit.isSome) with _ | row
  · rw [hfind]
    rfl
  · rw [hfind]
    rfl

/-- C3 counterexample.  With no user rules, a group table carrying only a
"default" row of 2 and an identity whose groupId is PRESENT but EMPTY, the
claimed precedence resolves the group default 2, but the code resolves 0
(the empty string is falsy, so both group lookups are skipped and the absent
user default yields 0). -/
theorem quota_precedence_cex :
    resolveLimitMB [] [{ id := some (S "default"), sizeLimit := some (JVal.num 2) }]
        (S "u2") (some []) = 0
    ∧ resolveLimitSpec [] [{ id := some (S "default"), sizeLimit := some (JVal.num 2) }]
        (S "u2") (some []) = 2
    ∧ (0 : ℚ) ≠ 2 :=
  ⟨by decide, by decide, by decide⟩

/-- C3 (amended).  For every identity whose groupId, when present, is
non-empty (JavaScript truthiness of the group id), the code's quota resolver
agrees with the claimed precedence: exact user row, else exact group row,
else group "default" row (group steps only with a groupId), else user
"default" row, else 0; and the final coercion sends negative numbers, NaN,
non-number values and missing values to 0. -/
theorem quota_precedence_resolved (ur gr : List LimitRow) (u : Str) (g? : Option Str)
    (hg : ∀ g, g? = some g → g ≠ []) :
    resolveLimitMB ur gr u g? = resolveLimitSpec ur gr u g?
    ∧ (∀ q : ℚ, q < 0 → coerceLimit (some (JVal.num q)) = 0)
    ∧ (∀ q : ℚ, 0 ≤ q → coerceLimit (some (JVal.num q)) = q)
    ∧ coerceLimit (some JVal.nan) = 0
    ∧ coerceLimit (some JVal.other) = 0
    ∧ coerceLimit none = 0 := by
  refine ⟨?_, fun q hq => if_pos hq, fun q hq => if_neg (not_lt.mpr hq), rfl, rfl, rfl⟩
  rcases g? with _ | g
  · rfl
  · have hne : g ≠ [] := hg g rfl
    rw [resolveLimitMB, resolveLimitSpec, rawLimit]
    rw [show strTruthy (some g) = some g from if_neg hne]

/-- Witness for `quota_precedence_resolved`: the spec scenario with user rule
(u1, 5), group default 2 and identity (u1, g1); a user-specific rule wins
over the group default and resolves 5. -/
theorem quota_precedence_resolved_witness :
    resolveLimitMB [{ id := some (S "u1"), sizeLimit := some (JVal.num 5) }]
        [{ id := some (S "default"), sizeLimit := some (JVal.num 2) }] (S "u1") (some (S "g1")) = 5
    ∧ (resolveLimitMB [{ id := some (S "u1"), sizeLimit := some (JVal.num 5) }]
          [{ id := some (S "default"), sizeLimit := some (JVal.num 2) }] (S "u1") (some (S "g1")) =
        resolveLimitSpec [{ id := some (S "u1"), sizeLimit := some (JVal.num 5) }]
          [{ id := some (S "default"), sizeLimit := some (JVal.num 2) }] (S "u1") (some (S "g1"))) :=
  ⟨by decide,
    (quota_precedence_resolved
      [{ id := some (S "u1"), sizeLimit := some (JVal.num 5) }]
      [{ id := some (S "default"), sizeLimit := some (JVal.num 2) }] (S "u1") (some (S "g1"))
      (fun g h => by
        injection h with h2
        subst h2
        decide)).1⟩


/-! ### Lemmas about the save loop -/

theorem runItems_char (env : LoopEnv) (items : List MediaItem) (i : Nat) (st : LoopState) :
    runItems env i items st =
      { savedCount := st.savedCount + okCount env.limitBytes items
        writes := st.writes ++ writesOf env i items
        msgs := st.msgs ++ msgsOf env i items } := by
  induction items generalizing i st with
  | nil =>
    cases st
    simp [runItems, okCount, writesOf, msgsOf]
  | cons it rest ih =>
    rw [runItems, ih]
    rcases hu : strTruthy it.url with _ | u
    · cases st
      simp [processItem, okCount, writesOf, msgsOf, itemOk, itemOversize, hu, List.filter_cons]
    · rcases hf : it.fetched with _ | f
      · cases st
        simp [processItem, okCount, writesOf, msgsOf, itemOk, itemOversize, hu, hf, List.filter_cons]
      · by_cases hb : (f.dataLen : ℚ) > env.limitBytes
        · cases st
          simp [processItem, okCount, writesOf, msgsOf, itemOk, itemOversize, hu, hf, hb,
            List.filter_cons, not_le.mpr hb]
        · cases st
          simp [processItem, okCount, writesOf, msgsOf, itemOk, itemOversize, hu, hf, hb,
            List.filter_cons, not_lt.mp hb]
          omega

theorem okCount_append (limitBytes : ℚ) (l1 l2 : List MediaItem) :
    okCount limitBytes (l1 ++ l2) = okCount limitBytes l1 + okCount limitBytes l2 := by
  simp [okCount, List.filter_append]

theorem writesOf_append (env : LoopEnv) (i : Nat) (l1 l2 : List MediaItem) :
    writesOf env i (l1 ++ l2) = writesOf env i l1 ++ writesOf env (i + l1.length) l2 := by
  induction l1 generalizing i with
  | nil => simp [writesOf]
  | cons it rest ih =>
    rw [List.cons_append, writesOf, writesOf, ih (i + 1), List.append_assoc]
    have harith : i + 1 + rest.length = i + (rest.length + 1) := by omega
    rw [harith]
    rfl

theorem msgsOf_append (env : LoopEnv) (i : Nat) (l1 l2 : List MediaItem) :
    msgsOf env i (l1 ++ l2) = msgsOf env i l1 ++ msgsOf env (i + l1.length) l2 := by
  induction l1 generalizing i with
  | nil => simp [msgsOf]
  | cons it rest ih =>
    rw [List.cons_append, msgsOf, msgsOf, ih (i + 1), List.append_assoc]
    have harith : i + 1 + rest.length = i + (rest.length + 1) := by omega
    rw [harith]
    rfl


/-- C5.  A resolved limit of 0 short-circuits the write path with the
user-denial outcome before any directory creation or file write: no mkdir is
attempted, no file is written, no message is sent, the reported saved count
is 0, and the denial outcome is distinct from the I/O-error outcome. -/
theorem quota_denied_short_circuit (cfg : SaveConfig) (sess : SaveSession) (folders : List Str)
    (keyword : Str) (items : List MediaItem) (baseTs : Nat) (fmtDate fmtTime : Nat → Str)
    (mkdirOk : Bool)
    (h : resolveLimitMB cfg.userLimits cfg.groupLimits sess.userId sess.guildId = 0) :
    saveCommand cfg sess folders keyword items baseTs fmtDate fmtTime mkdirOk =
      { outcome := SaveOutcome.quotaDenied, mkdirAttempts := [], writes := [], msgs := [], warns := [] }
    ∧ SaveOutcome.quotaDenied.savedOf = 0
    ∧ SaveOutcome.quotaDenied ≠ SaveOutcome.ioError := by
  refine ⟨?_, rfl, by decide⟩
  rw [saveCommand, h]
  rw [if_pos (le_refl (0 : ℚ))]

/-- Witness for `quota_denied_short_circuit`: empty rule tables resolve 0. -/
theorem quota_denied_short_circuit_witness :
    resolveLimitMB ([] : List LimitRow) ([] : List LimitRow) (S "u") none = 0
    ∧ saveCommand
        { tempPath := S "tmp", imagePath := S "img", filenameTemplate := S "x",
          saveFailFallback := true, userLimits := [], groupLimits := [] }
        { userId := S "u", username := none, guildId := none, channelId := none }
        [S "cat-mt"] (S "mt") [itemOkW] 0 (fun _ => []) (fun _ => []) true =
      { outcome := SaveOutcome.quotaDenied, mkdirAttempts := [], writes := [], msgs := [], warns := [] } :=
  ⟨by decide,
    (quota_denied_short_circuit
      { tempPath := S "tmp", imagePath := S "img", filenameTemplate := S "x",
        saveFailFallback := true, userLimits := [], groupLimits := [] }
      { userId := S "u", username := none, guildId := none, channelId := none }
      [S "cat-mt"] (S "mt") [itemOkW] 0 (fun _ => []) (fun _ => []) true (by decide)).1⟩


/-- C6.  An item whose byte length strictly exceeds the resolved threshold
(`limitMB * 1024 * 1024` bytes) is skipped without aborting the batch: the
user is sent exactly one notice carrying the item's 1-based index, its byte
length and the limit; the item is not written and does not contribute to
`savedCount`; and every other item of the batch is processed exactly as it
would be on its own (the writes and messages of the earlier and later items
are unchanged, and `savedCount` counts exactly the within-limit items around
it). -/
theorem oversize_item_skipped (env : LoopEnv) (pre post : List MediaItem) (it : MediaItem)
    (f : FetchedFile) (hf : itemOversize env.limitBytes it = some f)
    (hrel : env.limitBytes = env.limitMB * 1024 * 1024) :
    (f.dataLen : ℚ) > env.limitMB * 1024 * 1024
    ∧ (saveLoop env (pre ++ it :: post)).msgs
        = msgsOf env 0 pre
          ++ SentMsg.oversize (pre.length + 1) f.dataLen env.limitMB :: msgsOf env (pre.length + 1) post
    ∧ (saveLoop env (pre ++ it :: post)).writes
        = writesOf env 0 pre ++ writesOf env (pre.length + 1) post
    ∧ itemOk env.limitBytes it = false
    ∧ (saveLoop env (pre ++ it :: post)).savedCount
        = okCount env.limitBytes pre + okCount env.limitBytes post := by
  have hx : ∃ u, strTruthy it.url = some u ∧ it.fetched = some f ∧
      (f.dataLen : ℚ) > env.limitBytes := by
    rcases hu : strTruthy it.url with _ | u
    · simp [itemOversize, hu] at hf
    · rcases hfe : it.fetched with _ | f2
      · simp [itemOversize, hu, hfe] at hf
      · simp only [itemOversize, hu, hfe] at hf
        by_cases hb : (f2.dataLen : ℚ) > env.limitBytes
        · rw [if_pos hb] at hf
          injection hf with hf2
          subst hf2
          exact ⟨u, rfl, rfl, hb⟩
        · rw [if_neg hb] at hf
          cases hf
  obtain ⟨u, hu, hfe, hb⟩ := hx
  have hok : itemOk env.limitBytes it = false := by
    simp [itemOk, hu, hfe, not_le.mpr hb]
  refine ⟨hrel ▸ hb, ?_, ?_, hok, ?_⟩
  · rw [saveLoop, runItems_char, msgsOf_append]
    simp [msgsOf, itemOversize, hu, hfe, hb]
  · rw [saveLoop, runItems_char, writesOf_append]
    simp [writesOf, hu, hfe, hb]
  · rw [saveLoop, runItems_char, okCount_append]
    simp [okCount, List.filter_cons, hok]


/-- Witness for `oversize_item_skipped`: a 2000000-byte item between two
10-byte items under a 1 MB limit. -/
theorem oversize_item_skipped_witness :
    itemOversize envW.limitBytes itemBigW = some fBigW
    ∧ envW.limitBytes = envW.limitMB * 1024 * 1024
    ∧ ((fBigW.dataLen : ℚ) > envW.limitMB * 1024 * 1024
      ∧ (saveLoop envW ([itemOkW] ++ itemBigW :: [itemOkW])).msgs
          = msgsOf envW 0 [itemOkW]
            ++ SentMsg.oversize ([itemOkW].length + 1) fBigW.dataLen envW.limitMB
              :: msgsOf envW ([itemOkW].length + 1) [itemOkW]
      ∧ (saveLoop envW ([itemOkW] ++ itemBigW :: [itemOkW])).writes
          = writesOf envW 0 [itemOkW] ++ writesOf envW ([itemOkW].length + 1) [itemOkW]
      ∧ itemOk envW.limitBytes itemBigW = false
      ∧ (saveLoop envW ([itemOkW] ++ itemBigW :: [itemOkW])).savedCount
          = okCount envW.limitBytes [itemOkW] + okCount envW.limitBytes [itemOkW]) :=
  ⟨by decide, by norm_num [envW],
    oversize_item_skipped envW [itemOkW] [itemOkW] itemBigW fBigW (by decide) (by norm_num [envW])⟩


/-! ### Sanitizer and filename lemmas -/

theorem sanitize_not_mem {c : Char} (hc : isReservedFilenameChar c = true) (hne : c ≠ '_')
    (s : Str) : c ∉ sanitizeFilename s := by
  intro hmem
  rw [sanitizeFilename] at hmem
  obtain ⟨a, _, ha⟩ := List.mem_map.mp hmem
  by_cases hr : isReservedFilenameChar a = true
  · rw [if_pos hr] at ha
    exact hne ha.symm
  · rw [if_neg hr] at ha
    rw [ha] at hr
    exact hr hc

theorem sanitize_contains_false {c : Char} (hc : isReservedFilenameChar c = true) (hne : c ≠ '_')
    (s : Str) : (sanitizeFilename s).contains c = false := by
  rw [show (sanitizeFilename s).contains c = (sanitizeFilename s).elem c from rfl]
  rw [Bool.eq_false_iff]
  intro h
  exact sanitize_not_mem hc hne s (List.elem_iff.mp h)

theorem writesOf_all_sanitized (env : LoopEnv) (i : Nat) (items : List MediaItem) :
    (writesOf env i items).all
      (fun w => !(w.2.contains '/') && !(w.2.contains '\\')) = true := by
  induction items generalizing i with
  | nil => rfl
  | cons it rest ih =>
    rw [writesOf, List.all_append]
    refine Bool.and_eq_true_iff.mpr ⟨?_, ih (i + 1)⟩
    rcases hu : strTruthy it.url with _ | u
    · rfl
    · rcases hf : it.fetched with _ | f
      · rfl
      · show ((if (f.dataLen : ℚ) > env.limitBytes then ([] : List (Str × Str))
            else [(env.target, filenameFor env i f it.elemType)]).all
            (fun w => !(w.2.contains '/') && !(w.2.contains '\\'))) = true
        by_cases hb : (f.dataLen : ℚ) > env.limitBytes
        · rw [if_pos hb]
          rfl
        · rw [if_neg hb]
          simp only [List.all_cons, List.all_nil, Bool.and_true]
          rw [filenameFor,
            sanitize_contains_false (show isReservedFilenameChar '/' = true by decide)
              (show '/' ≠ '_' by decide),
            sanitize_contains_false (show isReservedFilenameChar '\\' = true by decide)
              (show '\\' ≠ '_' by decide)]
          rfl

theorem saveCommand_writes_all_sanitized (cfg : SaveConfig) (sess : SaveSession)
    (folders : List Str) (keyword : Str) (items : List MediaItem) (baseTs : Nat)
    (fmtDate fmtTime : Nat → Str) (mkdirOk : Bool) :
    ((saveCommand cfg sess folders keyword items baseTs fmtDate fmtTime mkdirOk).writes.all
      (fun w => !(w.2.contains '/') && !(w.2.contains '\\'))) = true := by
  simp only [saveCommand]
  by_cases hq : resolveLimitMB cfg.userLimits cfg.groupLimits sess.userId sess.guildId ≤ 0
  · rw [if_pos hq]
    rfl
  · rw [if_neg hq]
    repeat' split
    all_goals
      first
        | rfl
        | (simp only [saveLoop, runItems_char, List.nil_append]
           exact writesOf_all_sanitized _ 0 items)

/-- C8.  The filename sanitizer is idempotent, and after one pass no
character of the reserved set remains in the result. -/
theorem sanitizer_idempotent (s : Str) :
    sanitizeFilename (sanitizeFilename s) = sanitizeFilename s
    ∧ (sanitizeFilename s).all (fun c => !isReservedFilenameChar c) = true := by
  constructor
  · rw [sanitizeFilename, sanitizeFilename, List.map_map]
    refine List.map_congr_left ?_
    intro a _
    by_cases hr : isReservedFilenameChar a = true
    · simp [hr, Function.comp]
    · simp [hr, Function.comp]
  · rw [List.all_eq_true]
    intro c hc
    obtain ⟨a, _, ha⟩ := List.mem_map.mp hc
    by_cases hr : isReservedFilenameChar a = true
    · rw [if_pos hr] at ha
      rw [← ha]
      decide
    · rw [if_neg hr] at ha
      subst ha
      have hr2 : isReservedFilenameChar a = false := by
        cases hx : isReservedFilenameChar a
        · rfl
        · exact absurd hx hr
      rw [hr2]
      rfl

/-- C9.  The rendered-and-sanitized filename never contains a path
separator: for every template and naming context the result holds no `/` and
no `\`, and consequently every file write the save command performs pairs
the resolved target directory with a separator-free filename (the write
cannot escape the target directory). -/
theorem filename_stays_in_target_dir (tpl : Str) (cx : NamingContext) (cfg : SaveConfig)
    (sess : SaveSession) (folders : List Str) (keyword : Str) (items : List MediaItem)
    (baseTs : Nat) (fmtDate fmtTime : Nat → Str) (mkdirOk : Bool) :
    (sanitizeFilename (renderTemplate tpl cx)).contains '/' = false
    ∧ (sanitizeFilename (renderTemplate tpl cx)).contains '\\' = false
    ∧ ((saveCommand cfg sess folders keyword items baseTs fmtDate fmtTime mkdirOk).writes.all
        (fun w => !(w.2.contains '/') && !(w.2.contains '\\'))) = true :=
  ⟨sanitize_contains_false (by decide) (by decide) _,
   sanitize_contains_false (by decide) (by decide) _,
   saveCommand_writes_all_sanitized cfg sess folders keyword items baseTs fmtDate fmtTime mkdirOk⟩


theorem saveCommand_eq_matched (cfg : SaveConfig) (sess : SaveSession) (folders : List Str)
    (keyword : Str) (items : List MediaItem) (baseTs : Nat) (fmtDate fmtTime : Nat → Str)
    (f0 : Str) (rest2 : List Str)
    (hq : ¬ resolveLimitMB cfg.userLimits cfg.groupLimits sess.userId sess.guildId ≤ 0)
    (hk : keyword ≠ []) (hmatch : matchedFoldersOf folders keyword = f0 :: rest2) :
    saveCommand cfg sess folders keyword items baseTs fmtDate fmtTime true =
      { outcome := SaveOutcome.savedToFolder f0
          (okCount (resolveLimitMB cfg.userLimits cfg.groupLimits sess.userId sess.guildId
            * 1024 * 1024) items)
        mkdirAttempts := [joinPath cfg.imagePath f0]
        writes := writesOf
          { target := joinPath cfg.imagePath f0, tpl := cfg.filenameTemplate, sess := sess,
            limitMB := resolveLimitMB cfg.userLimits cfg.groupLimits sess.userId sess.guildId,
            limitBytes := resolveLimitMB cfg.userLimits cfg.groupLimits sess.userId sess.guildId
              * 1024 * 1024,
            baseTs := baseTs, fmtDate := fmtDate, fmtTime := fmtTime } 0 items
        msgs := msgsOf
          { target := joinPath cfg.imagePath f0, tpl := cfg.filenameTemplate, sess := sess,
            limitMB := resolveLimitMB cfg.userLimits cfg.groupLimits sess.userId sess.guildId,
            limitBytes := resolveLimitMB cfg.userLimits cfg.groupLimits sess.userId sess.guildId
              * 1024 * 1024,
            baseTs := baseTs, fmtDate := fmtDate, fmtTime := fmtTime } 0 items
        warns := [] } := by
  simp only [saveCommand, if_neg hq, if_pos hk, hmatch, saveLoop, runItems_char,
    List.nil_append, Nat.zero_add, if_true, eq_self_iff_true]

theorem saveCommand_eq_cancel (cfg : SaveConfig) (sess : SaveSession) (folders : List Str)
    (keyword : Str) (items : List MediaItem) (baseTs : Nat) (fmtDate fmtTime : Nat → Str)
    (hq : ¬ resolveLimitMB cfg.userLimits cfg.groupLimits sess.userId sess.guildId ≤ 0)
    (hk : keyword ≠ []) (hmatch : matchedFoldersOf folders keyword = [])
    (hsff : cfg.saveFailFallback = false) :
    saveCommand cfg sess folders keyword items baseTs fmtDate fmtTime true =
      { outcome := SaveOutcome.cancelled keyword, mkdirAttempts := [], writes := [], msgs := [],
        warns := [] } := by
  simp only [saveCommand, if_neg hq, if_pos hk, hmatch, if_pos (And.intro hk hsff)]

theorem saveCommand_eq_temp (cfg : SaveConfig) (sess : SaveSession) (folders : List Str)
    (keyword : Str) (items : List MediaItem) (baseTs : Nat) (fmtDate fmtTime : Nat → Str)
    (hq : ¬ resolveLimitMB cfg.userLimits cfg.groupLimits sess.userId sess.guildId ≤ 0)
    (hk : keyword ≠ []) (hmatch : matchedFoldersOf folders keyword = [])
    (hsff : cfg.saveFailFallback = true) :
    saveCommand cfg sess folders keyword items baseTs fmtDate fmtTime true =
      { outcome := SaveOutcome.savedToTemp keyword
          (okCount (resolveLimitMB cfg.userLimits cfg.groupLimits sess.userId sess.guildId
            * 1024 * 1024) items)
        mkdirAttempts := [cfg.tempPath]
        writes := writesOf
          { target := cfg.tempPath, tpl := cfg.filenameTemplate, sess := sess,
            limitMB := resolveLimitMB cfg.userLimits cfg.groupLimits sess.userId sess.guildId,
            limitBytes := resolveLimitMB cfg.userLimits cfg.groupLimits sess.userId sess.guildId
              * 1024 * 1024,
            baseTs := baseTs, fmtDate := fmtDate, fmtTime := fmtTime } 0 items
        msgs := msgsOf
          { target := cfg.tempPath, tpl := cfg.filenameTemplate, sess := sess,
            limitMB := resolveLimitMB cfg.userLimits cfg.groupLimits sess.userId sess.guildId,
            limitBytes := resolveLimitMB cfg.userLimits cfg.groupLimits sess.userId sess.guildId
              * 1024 * 1024,
            baseTs := baseTs, fmtDate := fmtDate, fmtTime := fmtTime } 0 items
        warns := [] } := by
  have hnc : ¬ (keyword ≠ [] ∧ cfg.saveFailFallback = false) := by
    intro hcon
    rw [hsff] at hcon
    cases hcon.2
  simp only [saveCommand, if_neg hq, if_pos hk, hmatch, if_neg hnc, saveLoop, runItems_char,
    List.nil_append, Nat.zero_add, if_true, eq_self_iff_true]


/-- C7.  Exact-match mode of the write path: a folder matches iff one of its
name segments equals the entire keyword; when folders match, the first one in
directory-listing order is the save target, and the save path emits no
collision warning even when several folders match (unlike the prefix-mode
middleware, which logs one); when none match, the request resolves to the
no-match outcome (cancel, or the temp-folder fallback per configuration),
never to a folder save. -/
theorem exact_match_resolution (cfg : SaveConfig) (sess : SaveSession) (folders : List Str)
    (keyword : Str) (items : List MediaItem) (baseTs : Nat) (fmtDate fmtTime : Nat → Str) :
    (∀ f, f ∈ matchedFoldersOf folders keyword ↔ f ∈ folders ∧ keyword ∈ splitOnDash f)
    ∧ (matchedFoldersOf folders keyword).head?
        = folders.find? (fun f => (splitOnDash f).contains keyword)
    ∧ (∀ f0 rest2, keyword ≠ [] →
        ¬ resolveLimitMB cfg.userLimits cfg.groupLimits sess.userId sess.guildId ≤ 0 →
        matchedFoldersOf folders keyword = f0 :: rest2 →
        (saveCommand cfg sess folders keyword items baseTs fmtDate fmtTime true).outcome
            = SaveOutcome.savedToFolder f0
                (okCount (resolveLimitMB cfg.userLimits cfg.groupLimits sess.userId sess.guildId
                  * 1024 * 1024) items)
          ∧ (saveCommand cfg sess folders keyword items baseTs fmtDate fmtTime true).warns = [])
    ∧ (keyword ≠ [] →
        ¬ resolveLimitMB cfg.userLimits cfg.groupLimits sess.userId sess.guildId ≤ 0 →
        matchedFoldersOf folders keyword = [] →
        (saveCommand cfg sess folders keyword items baseTs fmtDate fmtTime true).outcome
          = (if cfg.saveFailFallback then
              SaveOutcome.savedToTemp keyword
                (okCount (resolveLimitMB cfg.userLimits cfg.groupLimits sess.userId sess.guildId
                  * 1024 * 1024) items)
             else SaveOutcome.cancelled keyword)) := by
  refine ⟨?_, List.filter_head? _ folders, ?_, ?_⟩
  · intro f
    rw [matchedFoldersOf, List.mem_filter]
    exact and_congr_right fun _ => List.elem_iff
  · intro f0 rest2 hk hq hmatch
    rw [saveCommand_eq_matched cfg sess folders keyword items baseTs fmtDate fmtTime f0 rest2
      hq hk hmatch]
    exact ⟨rfl, rfl⟩
  · intro hk hq hmatch
    rcases hsff : cfg.saveFailFallback with _ | _
    · rw [saveCommand_eq_cancel cfg sess folders keyword items baseTs fmtDate fmtTime
        hq hk hmatch hsff]
      rfl
    · rw [saveCommand_eq_temp cfg sess folders keyword items baseTs fmtDate fmtTime
        hq hk hmatch hsff]
      rfl

/-- Witness for `exact_match_resolution`: folders `cat-mt` and `dog-mt` both
carry alias `mt`; the keyword `mt` matches both and saves to `cat-mt`, the
first in listing order, with no warning. -/
theorem exact_match_resolution_witness :
    ((S "cat-mt") ∈ matchedFoldersOf [S "cat-mt", S "dog-mt"] (S "mt")
        ↔ (S "cat-mt") ∈ [S "cat-mt", S "dog-mt"] ∧ (S "mt") ∈ splitOnDash (S "cat-mt"))
    ∧ (matchedFoldersOf [S "cat-mt", S "dog-mt"] (S "mt")).head?
        = ([S "cat-mt", S "dog-mt"] : List Str).find?
            (fun f => (splitOnDash f).contains (S "mt"))
    ∧ (saveCommand
        { tempPath := S "tmp", imagePath := S "img", filenameTemplate := S "x",
          saveFailFallback := true,
          userLimits := [{ id := some (S "default"), sizeLimit := some (JVal.num 5) }],
          groupLimits := [] }
        { userId := S "u", username := none, guildId := none, channelId := none }
        [S "cat-mt", S "dog-mt"] (S "mt") [] 0 (fun _ => []) (fun _ => []) true).outcome
        = SaveOutcome.savedToFolder (S "cat-mt")
            (okCount (resolveLimitMB
              [{ id := some (S "default"), sizeLimit := some (JVal.num 5) }] [] (S "u") none
              * 1024 * 1024) [])
    ∧ (saveCommand
        { tempPath := S "tmp", imagePath := S "img", filenameTemplate := S "x",
          saveFailFallback := true,
          userLimits := [{ id := some (S "default"), sizeLimit := some (JVal.num 5) }],
          groupLimits := [] }
        { userId := S "u", username := none, guildId := none, channelId := none }
        [S "cat-mt", S "dog-mt"] (S "mt") [] 0 (fun _ => []) (fun _ => []) true).warns = [] := by
  refine ⟨(exact_match_resolution
      { tempPath := S "tmp", imagePath := S "img", filenameTemplate := S "x",
        saveFailFallback := true,
        userLimits := [{ id := some (S "default"), sizeLimit := some (JVal.num 5) }],
        groupLimits := [] }
      { userId := S "u", username := none, guildId := none, channelId := none }
      [S "cat-mt", S "dog-mt"] (S "mt") [] 0 (fun _ => []) (fun _ => [])).1 (S "cat-mt"),
    (exact_match_resolution
      { tempPath := S "tmp", imagePath := S "img", filenameTemplate := S "x",
        saveFailFallback := true,
        userLimits := [{ id := some (S "default"), sizeLimit := some (JVal.num 5) }],
        groupLimits := [] }
      { userId := S "u", username := none, guildId := none, channelId := none }
      [S "cat-mt", S "dog-mt"] (S "mt") [] 0 (fun _ => []) (fun _ => [])).2.1, ?_, ?_⟩
  · exact ((exact_match_resolution
      { tempPath := S "tmp", imagePath := S "img", filenameTemplate := S "x",
        saveFailFallback := true,
        userLimits := [{ id := some (S "default"), sizeLimit := some (JVal.num 5) }],
        groupLimits := [] }
      { userId := S "u", username := none, guildId := none, channelId := none }
      [S "cat-mt", S "dog-mt"] (S "mt") [] 0 (fun _ => []) (fun _ => [])).2.2.1
      (S "cat-mt") [S "dog-mt"] (by decide) (by decide) (by decide)).1
  · exact ((exact_match_resolution
      { tempPath := S "tmp", imagePath := S "img", filenameTemplate := S "x",
        saveFailFallback := true,
        userLimits := [{ id := some (S "default"), sizeLimit := some (JVal.num 5) }],
        groupLimits := [] }
      { userId := S "u", username := none, guildId := none, channelId := none }
      [S "cat-mt", S "dog-mt"] (S "mt") [] 0 (fun _ => []) (fun _ => [])).2.2.1
      (S "cat-mt") [S "dog-mt"] (by decide) (by decide) (by decide)).2


end ImageSel
